import Mathlib

/-
Verification of the claude_connector core: a shallow embedding of the
authentication middleware variants (static key, session OAuth, JWKS JWT),
the OAuth callback handler, the CSV record store and the MCP tool
dispatcher, together with theorems about the frozen specification claims.

Conventions of the embedding:
* HTTP plumbing is abstracted away: a middleware is a function from the
  relevant request data (the Authorization header value, the decoded
  session, the token header fields) to an outcome.
* Go strings are Lean Strings; Go `strings.Split(s, " ")` is `goSplit`,
  defined below by structural recursion so that it evaluates in the kernel.
* Go `int` is Lean `Int`; a Go slice expression `xs[i:]` is `goSliceFrom`,
  returning `none` exactly when the Go program would panic with a
  slice-out-of-range error.
* Remote calls (the JWKS fetch, the OAuth code exchange, reading the CSV
  file) are inputs to the embedded functions: an `Option`/`Except` value
  describing the call result.  Counters in the returned traces record how
  many times the middleware performs a fetch or a key-id lookup.
-/

namespace ClaudeConnector

/-- Body of a JSON error response produced with `AbortWithStatusJSON`:
the `error` message and the optional raw `details` field (only the
JWKS variant ever sets `details`, at middleware/auth.go line 56). -/
structure ErrorPayload where
  error : String
  details : Option String
deriving DecidableEq, Repr

/-- Outcome of a middleware run: either the request is aborted with an
HTTP status and a JSON error payload, or control passes on (`c.Next()`). -/
inductive AuthOutcome where
  | abortWith (status : Nat) (payload : ErrorPayload)
  | next
deriving DecidableEq, Repr

/-- The `details` field of a rejection payload (`none` for a pass-through
outcome or a rejection that carries no details). -/
def AuthOutcome.leakedDetails : AuthOutcome → Option String
  | .abortWith _ p => p.details
  | .next => none

/-- Go `strings.Split(s, " ")` on the character list: split around every
space, keeping empty fields; the split of the empty string is `[[]]`. -/
def splitSpace : List Char → List (List Char)
  | [] => [[]]
  | c :: rest =>
    if c = ' ' then [] :: splitSpace rest
    else
      match splitSpace rest with
      | [] => [[c]]
      | f :: r => (c :: f) :: r

/-- Go `strings.Split(s, " ")` as a function on `String`. -/
def goSplit (s : String) : List String :=
  (splitSpace s.data).map String.mk

/-- Static-key variant of `AuthMiddleware` (middleware/auth.go, the
`AuthMiddleware(apiKey string)` function): reject a missing header, then a
header that is not exactly `Bearer <token>`, then a token different from
the configured key; otherwise continue. -/
def staticAuthMiddleware (apiKey : String) (authHeader : String) : AuthOutcome :=
  if authHeader = "" then
    .abortWith 401 ⟨"Authorization header required", none⟩
  else
    let parts := goSplit authHeader
    if parts.length ≠ 2 ∨ parts.getD 0 "" ≠ "Bearer" then
      .abortWith 401 ⟨"Invalid Authorization header format. Use \x27Bearer <token>\x27", none⟩
    else if parts.getD 1 "" ≠ apiKey then
      .abortWith 401 ⟨"Invalid API Key", none⟩
    else
      .next

/-- Cost model of the character scan behind a Go string (in)equality test:
the number of character comparisons an early-exit scan performs, namely
one per position up to and including the first mismatch. -/
def cmpCharsCost : List Char → List Char → Nat
  | a :: as, b :: bs => 1 + (if a = b then cmpCharsCost as bs else 0)
  | _, _ => 0

/-- Cost of evaluating `s != t` on Go strings: the length comparison is
constant time; only equal-length strings are scanned character by
character, stopping at the first mismatch. -/
def stringNeCost (s t : String) : Nat :=
  if s.length = t.length then cmpCharsCost s.data t.data else 0

/-- Signing algorithm declared in a JWT header.  `RS256` stands for the
RSA family (`jwt.SigningMethodRSA`), `HS256` for the symmetric HMAC
family, `ES256` for the (asymmetric, non-RSA) ECDSA family. -/
inductive SigAlg where
  | RS256
  | HS256
  | ES256
deriving DecidableEq, Repr

/-- Rendering of the algorithm for the `%v` of `token.Header["alg"]`. -/
def SigAlg.algName : SigAlg → String
  | .RS256 => "RS256"
  | .HS256 => "HS256"
  | .ES256 => "ES256"

/-- The type assertion `token.Method.(*jwt.SigningMethodRSA)` succeeds
exactly for the RSA family. -/
def SigAlg.isRSAMethod : SigAlg → Bool
  | .RS256 => true
  | _ => false

/-- Whether the algorithm family is symmetric (HMAC). -/
def SigAlg.isSymmetric : SigAlg → Bool
  | .HS256 => true
  | _ => false

/-- The part of a JWT header the keyfunc inspects: the algorithm and the
optional `kid` entry (`none` when absent or not a string). -/
structure JWTHeader where
  alg : SigAlg
  kid : Option String
deriving DecidableEq, Repr

/-- A member of the fetched JWKS document: its key id, and whether
`keys.Raw(&pubkey)` succeeds on it. -/
structure KeyEntry where
  kid : String
  rawOk : Bool
deriving DecidableEq, Repr

/-- `keySet.LookupKeyID(kid)`: the first key whose id matches. -/
def lookupKeyID (keySet : List KeyEntry) (kid : String) : Option KeyEntry :=
  keySet.find? (fun k => k.kid = kid)

/-- The keyfunc closure passed to `jwt.Parse` (middleware/auth.go lines
36-53): check the signing method is RSA, read the `kid` header, look the
key up in the fetched key set, extract the raw public key.  The second
component counts how many `LookupKeyID` calls were performed. -/
def jwksKeyfunc (keySet : List KeyEntry) (h : JWTHeader) :
    Except String KeyEntry × Nat :=
  if ¬ h.alg.isRSAMethod then
    (.error ("unexpected signing method: " ++ h.alg.algName), 0)
  else
    match h.kid with
    | none => (.error "kid header not found", 0)
    | some kid =>
      match lookupKeyID keySet kid with
      | none => (.error ("key with kid " ++ kid ++ " not found"), 1)
      | some k =>
        if k.rawOk then (.ok k, 1)
        else (.error "failed to get raw public key", 1)

/-- Trace of one run of the JWKS middleware: the outcome plus how many
remote JWKS fetches and key-id lookups the run performed. -/
structure JwksTrace where
  outcome : AuthOutcome
  fetchCount : Nat
  lookupCount : Nat
deriving DecidableEq, Repr

/-- JWKS variant of `AuthMiddleware` (middleware/auth.go lines 14-67).
`fetchResult` is the result of the unconditional `jwk.Fetch` call
(`none` = fetch error), `header` the decoded JWT header, `sigValid`
whether the signature verifies under the selected key.  The middleware
fetches the key document once per request before parsing the token; a
keyfunc failure aborts with the underlying error string in `details`. -/
def jwksAuthMiddleware (fetchResult : Option (List KeyEntry))
    (authHeader : String) (header : JWTHeader) (sigValid : Bool) : JwksTrace :=
  if authHeader = "" then
    ⟨.abortWith 401 ⟨"Authorization header required", none⟩, 0, 0⟩
  else
    let parts := goSplit authHeader
    if parts.length ≠ 2 ∨ parts.getD 0 "" ≠ "Bearer" then
      ⟨.abortWith 401 ⟨"Invalid Authorization header format. Use \x27Bearer <token>\x27", none⟩, 0, 0⟩
    else
      match fetchResult with
      | none => ⟨.abortWith 500 ⟨"Failed to fetch JWKS", none⟩, 1, 0⟩
      | some keySet =>
        match jwksKeyfunc keySet header with
        | (.error msg, lk) => ⟨.abortWith 401 ⟨"Invalid token", some msg⟩, 1, lk⟩
        | (.ok _, lk) =>
          if ¬ sigValid then
            ⟨.abortWith 401 ⟨"Invalid token", some "signature is invalid"⟩, 1, lk⟩
          else
            ⟨.next, 1, lk⟩

/-- An OAuth2 access token as stored in the session: `expiry = 0` models
a zero `Expiry` time (token without expiry). -/
structure OToken where
  accessToken : String
  expiry : Int
deriving DecidableEq, Repr

/-- `oauth2.Token.Valid()` at time `now`: a non-empty access token that
has not expired. -/
def OToken.valid (t : OToken) (now : Int) : Bool :=
  t.accessToken ≠ "" && (t.expiry = 0 || now < t.expiry)

/-- The values this system keeps in a session: the CSRF `state` string
and the OAuth `token`, each absent when never stored (or stored with a
different type, so that the Go type assertion fails). -/
structure Session where
  state : Option String
  token : Option OToken
deriving DecidableEq, Repr

/-- Session-OAuth variant of `AuthMiddleware` (middleware/auth.go lines
80-100): `sessionResult` is the result of `store.Get` (`none` = error);
reject when no valid token is stored, else continue. -/
def sessionAuthMiddleware (sessionResult : Option Session) (now : Int) : AuthOutcome :=
  match sessionResult with
  | none => .abortWith 500 ⟨"Failed to get session", none⟩
  | some session =>
    match session.token with
    | none => .abortWith 401 ⟨"Not authenticated or token expired. Please visit /auth/login", none⟩
    | some t =>
      if ¬ t.valid now then
        .abortWith 401 ⟨"Not authenticated or token expired. Please visit /auth/login", none⟩
      else
        .next

/-- Response of the OAuth callback handler: an aborted request with a
status and error message, or the 200 confirmation body. -/
inductive CallbackResponse where
  | failure (status : Nat) (errMsg : String)
  | success (msg : String)
deriving DecidableEq, Repr

/-- `HandleCallback` (handlers/oauth.go lines 173-202).  `sessionResult`
is the result of `store.Get`; `queryState`/`queryCode` are the `state`
and `code` query parameters; `exchange` is the server-to-server code
exchange (`none` = exchange error).  Saving the session is modelled as
always succeeding.  Returns the stored session after the run and the
response.  Note that on a state match the handler stores the token but
never deletes `session.Values["state"]`. -/
def handleCallback (sessionResult : Option Session)
    (queryState queryCode : String) (exchange : String → Option OToken) :
    Option Session × CallbackResponse :=
  match sessionResult with
  | none => (none, .failure 500 "Failed to get session")
  | some session =>
    match session.state with
    | none => (some session, .failure 401 "Invalid state")
    | some s =>
      if s ≠ queryState then
        (some session, .failure 401 "Invalid state")
      else
        match exchange queryCode with
        | none => (some session, .failure 500 "Failed to exchange token")
        | some token =>
          (some { session with token := some token }, .success "Successfully authenticated")

/-- A code exchange that always succeeds, for concrete runs. -/
def exchangeOK : String → Option OToken :=
  fun _ => some ⟨"access", 0⟩

/-- Result of opening and fully reading the CSV file. -/
inductive CsvReadResult where
  | openError (e : String)
  | readError (e : String)
  | ok (records : List (List String))
deriving DecidableEq, Repr

/-- The Go slice expression `xs[i:]`: defined exactly when
`0 ≤ i ≤ len(xs)`, otherwise the program panics (`none`). -/
def goSliceFrom (xs : List (List String)) (i : Int) : Option (List (List String)) :=
  if 0 ≤ i ∧ i ≤ (xs.length : Int) then some (xs.drop i.toNat) else none

/-- `tools.GetLastNRecords` (tools/csv_reader.go): propagate read errors,
return the empty slice for an empty file, otherwise slice from
`len(records) - n` clamped below at `0`.  The outer `Option` is `none`
exactly when the slice expression would panic. -/
def GetLastNRecords (file : CsvReadResult) (n : Int) :
    Option (Except String (List (List String))) :=
  match file with
  | .openError e => some (.error ("could not open csv file: " ++ e))
  | .readError e => some (.error ("could not read csv file: " ++ e))
  | .ok records =>
    if records.length = 0 then
      some (.ok [])
    else
      let startIndex : Int := (records.length : Int) - n
      let startIndex := if startIndex < 0 then 0 else startIndex
      (goSliceFrom records startIndex).map .ok

/-- Inner loop of the tool's response builder (handlers/mcp_handler.go
lines 40-45): write each field, with a comma after every field but the
last. -/
def writeRecord : List String → String
  | [] => ""
  | [v] => v
  | v :: rest => v ++ "," ++ writeRecord rest

/-- Outer loop of the tool's response builder (handlers/mcp_handler.go
lines 39-49): write each record, with a newline after every record but
the last. -/
def writeRecords : List (List String) → String
  | [] => ""
  | [r] => writeRecord r
  | r :: rest => writeRecord r ++ "\n" ++ writeRecords rest

/-- What one tool invocation produces: the text content of the
`ToolResponse`, the Go `error` second return value (`none` = nil, i.e.
the protocol-level call succeeded), and how many times the record store
(`tools.GetLastNRecords`) was called. -/
structure ToolCallResult where
  text : String
  protocolError : Option String
  storeCalls : Nat
deriving DecidableEq, Repr

/-- The `get_last_n_records` tool body registered in `MCPHandler`
(handlers/mcp_handler.go lines 24-52).  The outer `Option` is `none`
exactly when the run panics (it never does, thanks to the count guard). -/
def runGetLastNRecordsTool (file : CsvReadResult) (count : Int) :
    Option ToolCallResult :=
  if count ≤ 0 then
    some ⟨"Error: count must be a positive integer.", none, 0⟩
  else
    match GetLastNRecords file count with
    | none => none
    | some (.error e) => some ⟨"Error: failed to get records: " ++ e, none, 1⟩
    | some (.ok records) =>
      if records.length = 0 then
        some ⟨"No records found.", none, 1⟩
      else
        some ⟨writeRecords records, none, 1⟩

/-- Go JSON decoding of the `count` argument into the `int` field of
`GetLastNRecordsArgs`: an absent field decodes to the zero value. -/
def decodeCount (a : Option Int) : Int :=
  a.getD 0

/-- A concrete ten-row source, rows indexed 0 through 9. -/
def rows10 : List (List String) :=
  [["r0a", "r0b"], ["r1a", "r1b"], ["r2a", "r2b"], ["r3a", "r3b"],
   ["r4a", "r4b"], ["r5a", "r5b"], ["r6a", "r6b"], ["r7a", "r7b"],
   ["r8a", "r8b"], ["r9a", "r9b"]]

/-- Claim C2: the static-key variant rejects two equal-length wrong tokens
identically, but the character scan behind the Go `!=` comparison exits at
the first mismatch, so the work done depends on where the mismatch sits:
against secret "abc123", rejecting "xbc123" costs 1 comparison while
rejecting "abc12x" costs 6.  The comparison is therefore not constant
time, refuting the claim on the code (the spec itself flags this defect). -/
theorem static_key_compare_not_constant_time :
    staticAuthMiddleware "abc123" "Bearer xbc123" =
      .abortWith 401 ⟨"Invalid API Key", none⟩ ∧
    staticAuthMiddleware "abc123" "Bearer abc12x" =
      .abortWith 401 ⟨"Invalid API Key", none⟩ ∧
    "xbc123".length = "abc12x".length ∧
    "xbc123" ≠ "abc123" ∧ "abc12x" ≠ "abc123" ∧
    stringNeCost "xbc123" "abc123" = 1 ∧
    stringNeCost "abc12x" "abc123" = 6 := by
  decide

/-- Claim C4: on a key-id miss the middleware does not refresh and retry.
Running the JWKS middleware on a well-formed RSA token whose kid "k1" is
absent from the fetched key set performs exactly one fetch (the
unconditional per-request `jwk.Fetch`, not one triggered by the miss) and
exactly one key lookup (no retry), and rejects immediately with the
underlying "key with kid k1 not found" error. -/
theorem jwks_unknown_kid_single_fetch_no_retry :
    jwksAuthMiddleware (some [⟨"other", true⟩]) "Bearer t" ⟨.RS256, some "k1"⟩ true =
      ⟨.abortWith 401 ⟨"Invalid token", some "key with kid k1 not found"⟩, 1, 1⟩ := by
  decide

/-- Claim C5: the static-key variant decides every request by the stated
case analysis: missing header → authorization-required rejection;
header not of the form `Bearer <token>` (not exactly two space-separated
parts with first part "Bearer") → malformed-header rejection; token
different from the configured key → invalid-credential rejection; token
equal to the key → pass through. -/
theorem static_key_three_way_decision (apiKey authHeader : String) :
    (authHeader = "" →
      staticAuthMiddleware apiKey authHeader =
        .abortWith 401 ⟨"Authorization header required", none⟩) ∧
    (authHeader ≠ "" →
      ((goSplit authHeader).length ≠ 2 ∨ (goSplit authHeader).getD 0 "" ≠ "Bearer") →
      staticAuthMiddleware apiKey authHeader =
        .abortWith 401 ⟨"Invalid Authorization header format. Use \x27Bearer <token>\x27", none⟩) ∧
    (authHeader ≠ "" →
      (goSplit authHeader).length = 2 → (goSplit authHeader).getD 0 "" = "Bearer" →
      (goSplit authHeader).getD 1 "" ≠ apiKey →
      staticAuthMiddleware apiKey authHeader = .abortWith 401 ⟨"Invalid API Key", none⟩) ∧
    (authHeader ≠ "" →
      (goSplit authHeader).length = 2 → (goSplit authHeader).getD 0 "" = "Bearer" →
      (goSplit authHeader).getD 1 "" = apiKey →
      staticAuthMiddleware apiKey authHeader = .next) := by
  refine ⟨fun h0 => ?_, fun h0 hm => ?_, fun h0 h2 hb hneq => ?_, fun h0 h2 hb heq => ?_⟩ <;>
    simp_all [staticAuthMiddleware]

/-- Witness for claim C5 at concrete inputs, one per case. -/
theorem static_key_three_way_decision_witness :
    staticAuthMiddleware "abc123" "" =
      .abortWith 401 ⟨"Authorization header required", none⟩ ∧
    staticAuthMiddleware "abc123" "Basic abc123" =
      .abortWith 401 ⟨"Invalid Authorization header format. Use \x27Bearer <token>\x27", none⟩ ∧
    staticAuthMiddleware "abc123" "Bearer wrong" =
      .abortWith 401 ⟨"Invalid API Key", none⟩ ∧
    staticAuthMiddleware "abc123" "Bearer abc123" = .next := by
  refine ⟨(static_key_three_way_decision "abc123" "").1 rfl,
    (static_key_three_way_decision "abc123" "Basic abc123").2.1 (by decide) (by decide),
    (static_key_three_way_decision "abc123" "Bearer wrong").2.2.1
      (by decide) (by decide) (by decide) (by decide),
    (static_key_three_way_decision "abc123" "Bearer abc123").2.2.2
      (by decide) (by decide) (by decide) (by decide)⟩

/-- Claim C3: for a well-formed bearer header carrying a JWT whose header
declares a symmetric algorithm, the JWKS middleware performs no key-id
lookup at all, and (whenever the unconditional key-document fetch
succeeded) rejects with 401 and the unsupported-algorithm reason. -/
theorem jwks_symmetric_alg_no_key_lookup (fetchResult : Option (List KeyEntry))
    (alg : SigAlg) (kid : Option String) (sigValid : Bool) (authHeader : String)
    (hne : authHeader ≠ "")
    (hlen : (goSplit authHeader).length = 2)
    (hbearer : (goSplit authHeader).getD 0 "" = "Bearer")
    (hsym : alg.isSymmetric = true) :
    (jwksAuthMiddleware fetchResult authHeader ⟨alg, kid⟩ sigValid).lookupCount = 0 ∧
    ∀ keySet, fetchResult = some keySet →
      (jwksAuthMiddleware fetchResult authHeader ⟨alg, kid⟩ sigValid).outcome =
        .abortWith 401 ⟨"Invalid token", some ("unexpected signing method: " ++ alg.algName)⟩ := by
  cases alg <;> simp_all [SigAlg.isSymmetric]
  cases fetchResult <;>
    simp_all [jwksAuthMiddleware, jwksKeyfunc, SigAlg.isRSAMethod, SigAlg.algName]

/-- Witness for claim C3: an HS256 token with a well-formed bearer header
against a successfully fetched (empty) key set. -/
theorem jwks_symmetric_alg_no_key_lookup_witness :
    (jwksAuthMiddleware (some []) "Bearer t" ⟨.HS256, none⟩ true).lookupCount = 0 ∧
    (jwksAuthMiddleware (some []) "Bearer t" ⟨.HS256, none⟩ true).outcome =
      .abortWith 401 ⟨"Invalid token", some "unexpected signing method: HS256"⟩ := by
  have h := jwks_symmetric_alg_no_key_lookup (some []) .HS256 none true "Bearer t"
    (by decide) (by decide) (by decide) rfl
  exact ⟨h.1, h.2 [] rfl⟩

/-- Claim C1 counterexample: `HandleCallback` never removes the stored
state.  Starting from a session holding state "S", a first callback with
matching state "S" succeeds and leaves state "S" in the stored session,
so a second callback presenting the very same state value passes the
state-match check again and succeeds — the state is not single use. -/
theorem callback_state_reuse_counterexample :
    (handleCallback (some ⟨some "S", none⟩) "S" "c" exchangeOK).2 =
      .success "Successfully authenticated" ∧
    ((handleCallback (some ⟨some "S", none⟩) "S" "c" exchangeOK).1.map Session.state) =
      some (some "S") ∧
    (handleCallback (handleCallback (some ⟨some "S", none⟩) "S" "c" exchangeOK).1
        "S" "c" exchangeOK).2 = .success "Successfully authenticated" := by
  decide

/-- Claim C1 amended: the callback handler does not consume the stored
state on a match.  Whenever the stored state matches the `state` query
parameter, the session kept after the run still holds the same state
value, so a later callback presenting that same state value again passes
the state-match check (it is never rejected as "Invalid state"); a
non-matching state is rejected with the session unchanged. -/
theorem callback_state_not_consumed (session : Session) (s code : String)
    (ex : String → Option OToken) (hstate : session.state = some s) :
    (∀ ns, (handleCallback (some session) s code ex).1 = some ns → ns.state = some s) ∧
    (∀ ns code2 ex2, (handleCallback (some session) s code ex).1 = some ns →
      (handleCallback (some ns) s code2 ex2).2 ≠ .failure 401 "Invalid state") ∧
    (∀ q, q ≠ s →
      (handleCallback (some session) q code ex).2 = .failure 401 "Invalid state" ∧
      (handleCallback (some session) q code ex).1 = some session) := by
  refine ⟨?_, ?_, ?_⟩
  · intro ns hns
    simp only [handleCallback, hstate] at hns
    simp only [if_neg (by simp : ¬ s ≠ s)] at hns
    cases hex : ex code <;> simp [hex] at hns <;> simp [← hns, hstate]
  · intro ns code2 ex2 hns
    have hstate2 : ns.state = some s := by
      simp only [handleCallback, hstate] at hns
      simp only [if_neg (by simp : ¬ s ≠ s)] at hns
      cases hex : ex code <;> simp [hex] at hns <;> simp [← hns, hstate]
    simp only [handleCallback, hstate2]
    simp only [if_neg (by simp : ¬ s ≠ s)]
    cases hex2 : ex2 code2 <;> simp
  · intro q hq
    have hne : s ≠ q := fun h => hq h.symm
    simp [handleCallback, hstate, if_pos hne]

/-- Witness for the amended claim C1 at a concrete session, state, code
and exchange function. -/
theorem callback_state_not_consumed_witness :
    (Session.mk (some "S") (some ⟨"access", 0⟩)).state = some "S" ∧
    (handleCallback (some ⟨some "S", some ⟨"access", 0⟩⟩) "S" "c2" exchangeOK).2 ≠
      .failure 401 "Invalid state" ∧
    ((handleCallback (some ⟨some "S", none⟩) "X" "c" exchangeOK).2 =
      .failure 401 "Invalid state" ∧
    (handleCallback (some ⟨some "S", none⟩) "X" "c" exchangeOK).1 =
      some ⟨some "S", none⟩) := by
  have h := callback_state_not_consumed ⟨some "S", none⟩ "S" "c" exchangeOK rfl
  exact ⟨h.1 ⟨some "S", some ⟨"access", 0⟩⟩ (by decide),
    h.2.1 ⟨some "S", some ⟨"access", 0⟩⟩ "c2" exchangeOK (by decide),
    h.2.2 "X" (by decide)⟩

/-- Claim C6 counterexample: the JWKS variant's token-parse rejection is
not limited to a categorized reason and message — it copies the raw
underlying error string into a `details` field, here revealing that the
algorithm check was the specific step that failed. -/
theorem jwks_rejection_leaks_details_counterexample :
    (jwksAuthMiddleware (some []) "Bearer t" ⟨.HS256, none⟩ true).outcome =
      .abortWith 401 ⟨"Invalid token", some "unexpected signing method: HS256"⟩ ∧
    (jwksAuthMiddleware (some []) "Bearer t" ⟨.HS256, none⟩ true).outcome.leakedDetails =
      some "unexpected signing method: HS256" := by
  decide

/-- Shape of a JWKS middleware outcome: either it carries no details, or
it is the 401 token-parse rejection carrying some underlying message. -/
theorem jwks_outcome_details_shape (fetchResult : Option (List KeyEntry))
    (authHeader : String) (h : JWTHeader) (sigValid : Bool) :
    (jwksAuthMiddleware fetchResult authHeader h sigValid).outcome.leakedDetails = none ∨
    ∃ msg, (jwksAuthMiddleware fetchResult authHeader h sigValid).outcome =
      .abortWith 401 ⟨"Invalid token", some msg⟩ := by
  simp only [jwksAuthMiddleware]
  split
  · left; rfl
  · split
    · left; rfl
    · split
      · left; rfl
      · split
        · right; exact ⟨_, rfl⟩
        · split
          · right; exact ⟨_, rfl⟩
          · left; rfl

/-- Claim C6 amended: rejections from the static-key and session-OAuth
variants carry only the categorized message and never a `details` field;
in the JWKS variant, only the token-parse rejection (status 401, message
"Invalid token") can carry a `details` field, and that field holds the
raw underlying error string. -/
theorem rejection_details_amended (apiKey authHeader jwksHeader : String)
    (sessionResult : Option Session) (now : Int)
    (fetchResult : Option (List KeyEntry)) (h : JWTHeader) (sigValid : Bool) :
    (staticAuthMiddleware apiKey authHeader).leakedDetails = none ∧
    (sessionAuthMiddleware sessionResult now).leakedDetails = none ∧
    (∀ st p,
      (jwksAuthMiddleware fetchResult jwksHeader h sigValid).outcome = .abortWith st p →
      p.details ≠ none → st = 401 ∧ p.error = "Invalid token") := by
  refine ⟨?_, ?_, ?_⟩
  · simp only [staticAuthMiddleware]
    split_ifs <;> rfl
  · cases sessionResult with
    | none => rfl
    | some session =>
      cases htok : session.token with
      | none => simp [sessionAuthMiddleware, htok, AuthOutcome.leakedDetails]
      | some t =>
        simp only [sessionAuthMiddleware, htok]
        split_ifs <;> rfl
  · intro st p hout hdet
    rcases jwks_outcome_details_shape fetchResult jwksHeader h sigValid with hnone | ⟨msg, hmsg⟩
    · rw [hout] at hnone
      exact absurd hnone hdet
    · rw [hout] at hmsg
      injection hmsg with ha hb
      subst ha
      subst hb
      exact ⟨rfl, rfl⟩

/-- Witness for the amended claim C6: concrete inputs for each variant,
including a JWKS token-parse rejection that does carry details. -/
theorem rejection_details_amended_witness :
    (staticAuthMiddleware "abc123" "Bearer wrong").leakedDetails = none ∧
    (sessionAuthMiddleware (some ⟨none, none⟩) 0).leakedDetails = none ∧
    ((401 : Nat) = 401 ∧
      (ErrorPayload.mk "Invalid token" (some "unexpected signing method: HS256")).error =
        "Invalid token") := by
  have h := rejection_details_amended "abc123" "Bearer wrong" "Bearer t"
    (some ⟨none, none⟩) 0 (some []) ⟨.HS256, none⟩ true
  exact ⟨h.1, h.2.1,
    h.2.2 401 ⟨"Invalid token", some "unexpected signing method: HS256"⟩ (by decide) (by decide)⟩

/-- Claim C7: a zero, negative or missing `count` (which Go decodes to
the zero value) makes the tool return the argument-error text as a normal
tool response: the protocol-level error is nil, and the record store is
never called. -/
theorem tool_nonpositive_count_is_tool_level_error (file : CsvReadResult)
    (a : Option Int) (ha : decodeCount a ≤ 0) :
    runGetLastNRecordsTool file (decodeCount a) =
      some ⟨"Error: " ++ "count must be a positive integer" ++ ".", none, 0⟩ := by
  unfold runGetLastNRecordsTool
  rw [if_pos ha]
  rfl

/-- Witness for claim C7: a negative and a missing count against the
ten-row source. -/
theorem tool_nonpositive_count_is_tool_level_error_witness :
    decodeCount (some (-2)) ≤ 0 ∧
    runGetLastNRecordsTool (.ok rows10) (decodeCount (some (-2))) =
      some ⟨"Error: count must be a positive integer.", none, 0⟩ ∧
    decodeCount none ≤ 0 ∧
    runGetLastNRecordsTool (.ok rows10) (decodeCount none) =
      some ⟨"Error: count must be a positive integer.", none, 0⟩ :=
  ⟨by decide,
   tool_nonpositive_count_is_tool_level_error (.ok rows10) (some (-2)) (by decide),
   by decide,
   tool_nonpositive_count_is_tool_level_error (.ok rows10) none (by decide)⟩

/-- Claim C8: for a readable source and positive `n`, `GetLastNRecords`
returns the suffix of the rows starting at index `length - n` (clamped):
at most `n` rows, the last ones, in original relative order (it is a
suffix of the input); all rows when `n` exceeds the count; the empty list
on an empty source with no error, in which case the tool reports the
"No records found." success text. -/
theorem getLastN_returns_last_rows (records : List (List String)) (n : Int)
    (hn : 1 ≤ n) :
    GetLastNRecords (.ok records) n =
      some (.ok (records.drop (records.length - n.toNat))) ∧
    (records.drop (records.length - n.toNat)).length = min n.toNat records.length ∧
    List.IsSuffix (records.drop (records.length - n.toNat)) records ∧
    ((records.length : Int) ≤ n → records.drop (records.length - n.toNat) = records) ∧
    (records = [] →
      runGetLastNRecordsTool (.ok records) n = some ⟨"No records found.", none, 1⟩) := by
  refine ⟨?_, ?_, List.drop_suffix _ _, ?_, ?_⟩
  · simp only [GetLastNRecords, goSliceFrom]
    by_cases h0 : records.length = 0
    · rw [if_pos h0]
      simp [List.length_eq_zero.mp h0]
    · rw [if_neg h0]
      have hcond : (0:Int) ≤
          (if ((records.length : Int) - n) < 0 then 0 else (records.length : Int) - n) ∧
          (if ((records.length : Int) - n) < 0 then 0 else (records.length : Int) - n) ≤
            (records.length : Int) := by
        constructor <;> split_ifs <;> omega
      rw [if_pos hcond]
      have htn : (if ((records.length : Int) - n) < 0 then (0:Int)
          else (records.length : Int) - n).toNat = records.length - n.toNat := by
        split_ifs <;> omega
      rw [htn, Option.map_some']
  · rw [List.length_drop]
    omega
  · intro hle
    have hz : records.length - n.toNat = 0 := by omega
    rw [hz, List.drop_zero]
  · intro hempty
    subst hempty
    simp [runGetLastNRecordsTool, GetLastNRecords, show ¬ (n ≤ 0) by omega]

/-- Witness for claim C8: `n = 5` against a three-row source returns all
three rows, and against an empty source the tool reports no records. -/
theorem getLastN_returns_last_rows_witness :
    GetLastNRecords (.ok [["a"], ["b"], ["c"]]) 5 = some (.ok [["a"], ["b"], ["c"]]) ∧
    runGetLastNRecordsTool (.ok ([] : List (List String))) 5 =
      some ⟨"No records found.", none, 1⟩ := by
  have h3 := getLastN_returns_last_rows [["a"], ["b"], ["c"]] 5 (by decide)
  have h0 := getLastN_returns_last_rows ([] : List (List String)) 5 (by decide)
  exact ⟨h3.1, h0.2.2.2.2 rfl⟩

/-- Accumulator lemma for `String.intercalate.go`. -/
theorem intercalate_go_cons (s : String) (l : List String) :
    ∀ a b : String,
      String.intercalate.go a s (b :: l) = a ++ s ++ String.intercalate.go b s l := by
  induction l with
  | nil => intro a b; rfl
  | cons c l ih =>
    intro a b
    show String.intercalate.go (a ++ s ++ b) s (c :: l) = a ++ s ++ String.intercalate.go b s (c :: l)
    rw [ih (a ++ s ++ b) c, ih b c]
    simp [String.append_assoc]

/-- Unfolding `String.intercalate` one separator at a time. -/
theorem intercalate_cons_cons (s a b : String) (l : List String) :
    String.intercalate s (a :: b :: l) = a ++ s ++ String.intercalate s (b :: l) := by
  show String.intercalate.go a s (b :: l) = a ++ s ++ String.intercalate.go b s l
  exact intercalate_go_cons s l a b

/-- The tool's inner builder loop joins the fields of a record with
commas. -/
theorem writeRecord_eq_intercalate (r : List String) :
    writeRecord r = String.intercalate "," r := by
  induction r with
  | nil => rfl
  | cons v tail ih =>
    cases tail with
    | nil => rfl
    | cons w rest =>
      show v ++ "," ++ writeRecord (w :: rest) = String.intercalate "," (v :: w :: rest)
      rw [intercalate_cons_cons, ih]

/-- The tool's outer builder loop joins the comma-joined records with
newlines. -/
theorem writeRecords_eq_intercalate (rs : List (List String)) :
    writeRecords rs = String.intercalate "\n" (rs.map (String.intercalate ",")) := by
  induction rs with
  | nil => rfl
  | cons r tail ih =>
    cases tail with
    | nil =>
      show writeRecord r = String.intercalate "\n" [String.intercalate "," r]
      rw [writeRecord_eq_intercalate]
      rfl
    | cons r2 rest =>
      show writeRecord r ++ "\n" ++ writeRecords (r2 :: rest) =
        String.intercalate "\n" ((r :: r2 :: rest).map (String.intercalate ","))
      rw [List.map_cons, List.map_cons, intercalate_cons_cons, ← List.map_cons,
        ih, writeRecord_eq_intercalate]

/-- Claim C9: whenever the record store returns a non-empty list of
rows, the tool's success payload is exactly those rows in their original
relative order, fields joined by commas and rows joined by newlines. -/
theorem tool_payload_serialization (file : CsvReadResult) (count : Int)
    (records : List (List String))
    (hrec : GetLastNRecords file count = some (.ok records))
    (hpos : 1 ≤ count) (hne : records ≠ []) :
    runGetLastNRecordsTool file count =
      some ⟨String.intercalate "\n" (records.map (String.intercalate ",")), none, 1⟩ := by
  unfold runGetLastNRecordsTool
  rw [if_neg (show ¬ count ≤ 0 by omega), hrec]
  show (if records.length = 0 then some (⟨"No records found.", none, 1⟩ : ToolCallResult)
    else some (⟨writeRecords records, none, 1⟩ : ToolCallResult)) = _
  rw [if_neg (fun h => hne (List.length_eq_zero.mp h)), writeRecords_eq_intercalate]

/-- Witness for claim C9: `count = 2` against the ten-row source yields
rows 8 and 9, comma-joined within each row and newline-joined. -/
theorem tool_payload_serialization_witness :
    runGetLastNRecordsTool (.ok rows10) 2 = some ⟨"r8a,r8b\nr9a,r9b", none, 1⟩ := by
  have h := tool_payload_serialization (.ok rows10) 2 [["r8a", "r8b"], ["r9a", "r9b"]]
    rfl (by decide) (by decide)
  exact h

/-- The record store never panics for a non-negative count. -/
theorem getLastN_isSome (file : CsvReadResult) (n : Int) (hn : 0 ≤ n) :
    (GetLastNRecords file n).isSome = true := by
  cases file with
  | openError e => rfl
  | readError e => rfl
  | ok records =>
    simp only [GetLastNRecords, goSliceFrom]
    by_cases h0 : records.length = 0
    · rw [if_pos h0]; rfl
    · rw [if_neg h0]
      have hcond : (0:Int) ≤
          (if ((records.length : Int) - n) < 0 then 0 else (records.length : Int) - n) ∧
          (if ((records.length : Int) - n) < 0 then 0 else (records.length : Int) - n) ≤
            (records.length : Int) := by
        constructor <;> split_ifs <;> omega
      rw [if_pos hcond]
      rfl

/-- Claim C10: the slice expression `records[startIndex:]` is in bounds
for every non-negative `n`, so `GetLastNRecords` never panics for such
`n`; for a negative `n` on a non-empty source the clamped start index
exceeds the record count and the run panics (`none`); and through the
dispatcher no panic is reachable, because of its `count > 0` guard. -/
theorem getLastN_slice_safety (records : List (List String)) (n : Int) :
    (0 ≤ n → (GetLastNRecords (.ok records) n).isSome = true) ∧
    (n < 0 → records ≠ [] → GetLastNRecords (.ok records) n = none) ∧
    (∀ file count, (runGetLastNRecordsTool file count).isSome = true) := by
  refine ⟨fun hn => getLastN_isSome _ _ hn, fun hn hne => ?_, fun file count => ?_⟩
  · have hlen : 0 < records.length := List.length_pos.mpr hne
    simp only [GetLastNRecords, goSliceFrom]
    rw [if_neg (by omega : ¬ records.length = 0)]
    rw [if_neg (by omega : ¬ ((records.length : Int) - n) < 0)]
    rw [if_neg (by omega :
      ¬ ((0:Int) ≤ (records.length : Int) - n ∧
        (records.length : Int) - n ≤ (records.length : Int)))]
    rfl
  · by_cases hc : count ≤ 0
    · simp [runGetLastNRecordsTool, hc]
    · simp only [runGetLastNRecordsTool]
      rw [if_neg hc]
      have hs := getLastN_isSome file count (by omega)
      rcases hg : GetLastNRecords file count with _ | r
      · rw [hg] at hs
        simp at hs
      · cases r with
        | error e => rfl
        | ok recs =>
          show (if recs.length = 0 then some (⟨"No records found.", none, 1⟩ : ToolCallResult)
            else some (⟨writeRecords recs, none, 1⟩ : ToolCallResult)).isSome = true
          split_ifs <;> rfl

/-- Witness for claim C10: a positive and a negative count against a
one-row source. -/
theorem getLastN_slice_safety_witness :
    ((0:Int) ≤ 2 ∧ (GetLastNRecords (.ok [["a"]]) 2).isSome = true) ∧
    ((-1:Int) < 0 ∧ ([["a"]] : List (List String)) ≠ [] ∧
      GetLastNRecords (.ok [["a"]]) (-1) = none) ∧
    (runGetLastNRecordsTool (.ok [["a"]]) (-1)).isSome = true := by
  have h := getLastN_slice_safety [["a"]] 2
  have hneg := getLastN_slice_safety [["a"]] (-1)
  exact ⟨⟨by decide, h.1 (by decide)⟩,
    ⟨by decide, by decide, hneg.2.1 (by decide) (by decide)⟩,
    hneg.2.2 (.ok [["a"]]) (-1)⟩

end ClaudeConnector
